import Mathlib

/-!
# DNS failover reconciliation (cmd/cli/multiregion/dns.go)

A shallow embedding of `setDnsToSecondary` and `setCloudflareCname`.

The Cloudflare client, the option source (`getOption`) and the operator prompt
(`simplePrompt`) are collaborators whose code is outside the file; they are taken
as parameters:

* the zone store is a state type `σ` with a lookup and an update function,
* `getOption : String → String → String` is the option source (key, default),
* `answers : Nat → String` gives the line the prompt returns at its k-th
  consultation (k counted from 0 over the whole run).

Everything the program does to the outside is recorded, in order, in a trace of
events; `log.Fatal` is the outcome `fatal`, after which nothing else runs.
-/

namespace Multiregion

/-! ## Data model -/

/-- A record of the zone as the store reports it (the fields of
`cloudflare.DNSRecord` the program reads). -/
structure DNSRecord where
  ID : String
  Type_ : String
  Name : String
  Content : String
deriving DecidableEq, Repr

/-- The filter of a lookup (`cloudflare.ListDNSRecordsParams`, only `Name` is set). -/
structure ListDNSRecordsParams where
  Name : String
deriving DecidableEq, Repr

/-- The request of an update (`cloudflare.UpdateDNSRecordParams`, the four fields set). -/
structure UpdateDNSRecordParams where
  ID : String
  Type_ : String
  Name : String
  Content : String
deriving DecidableEq, Repr

/-- The Cloudflare client over a store state `σ`. A lookup reads the state and
gives the matching records or an error; an update gives the next state and an
error, if any. Both receive the zone identifier. -/
structure CfClient (σ : Type) where
  ListDNSRecords : σ → String → ListDNSRecordsParams → Except String (List DNSRecord)
  UpdateDNSRecord : σ → String → UpdateDNSRecordParams → σ × Option String

/-- The receiver `DnsCommand` of the source. -/
structure DnsCommand (σ : Type) where
  cfClient : CfClient σ
  cfZone : String
  domainName : String
  testMode : Bool

/-- What the program does to the outside, one event per action.
`call` is a ghost event: it records an invocation of `setCloudflareCname` with
its two arguments. -/
inductive Event where
  | call (name value : String)
  | out (line : String)
  | lookup (p : ListDNSRecordsParams)
  | prompt (msg : String)
  | update (p : UpdateDNSRecordParams)
deriving DecidableEq, Repr

/-- How a function ends: it returns, or `log.Fatal` ends the process. -/
inductive Outcome where
  | returned
  | fatal (msg : String)
deriving DecidableEq, Repr

/-- The state of a run: the store, how many times the prompt was consulted, and
the events so far (oldest first). -/
structure World (σ : Type) where
  store : σ
  asked : Nat
  trace : List Event

/-- Append one event to the trace. -/
def World.emit {σ : Type} (w : World σ) (e : Event) : World σ :=
  { w with trace := w.trace ++ [e] }

/-- An entry of the local table `dnsRecords` of `setDnsToSecondary`. -/
structure DnsRecordSpec where
  optionName : String
  defaultName : String
  optionValue : String
deriving DecidableEq, Repr

/-! ## Trace observations -/

/-- Is the event an update call. -/
def Event.isUpdate : Event → Bool
  | .update _ => true
  | _ => false

/-- Is the event a consultation of the operator prompt. -/
def Event.isPrompt : Event → Bool
  | .prompt _ => true
  | _ => false

/-- The update requests of a trace, in order. -/
def updatesOf (t : List Event) : List UpdateDNSRecordParams :=
  t.filterMap (fun e => match e with | .update p => some p | _ => none)

/-- The lookups of a trace, in order. -/
def lookupsOf (t : List Event) : List ListDNSRecordsParams :=
  t.filterMap (fun e => match e with | .lookup p => some p | _ => none)

/-- The invocations of `setCloudflareCname` of a trace, in order, as (name, value). -/
def callsOf (t : List Event) : List (String × String) :=
  t.filterMap (fun e => match e with | .call n v => some (n, v) | _ => none)

/-! ## The program -/

/-- The message of the confirmation prompt. -/
def promptMessage : String := "Type \"yes\" to set this DNS record"

/-- The method `setCloudflareCname` (dns.go, lines 106-148). The test `len(r) != 1`
followed by the use of `r[0]` is the match on a one-element list; `answers w2.asked`
is the line `simplePrompt` returns. -/
def setCloudflareCname {σ : Type} (d : DnsCommand σ) (answers : Nat → String)
    (name value : String) (w : World σ) : Outcome × World σ :=
  let w0 := w.emit (.call name value)
  if value = "" then
    (.returned, w0.emit (.out ("  skipping " ++ name ++ " (no value provided)\n")))
  else
    let w1 := w0.emit (.out ("  " ++ name ++ "." ++ d.domainName ++ " --> " ++ value ++ "\n"))
    let q : ListDNSRecordsParams := ⟨name ++ "." ++ d.domainName⟩
    let w2 := w1.emit (.lookup q)
    match d.cfClient.ListDNSRecords w2.store d.cfZone q with
    | .error err => (.fatal ("error finding DNS record " ++ name ++ ": " ++ err), w2)
    | .ok [r0] =>
      if r0.Content = value then
        (.returned, w2.emit (.out ("CNAME " ++ name ++ " is already set to " ++ value ++ "\n")))
      else if d.testMode then
        (.returned, w2.emit (.out "  test mode: skipping API call\n"))
      else
        let answer := answers w2.asked
        let w3 : World σ := { w2.emit (.prompt promptMessage) with asked := w2.asked + 1 }
        if answer ≠ "yes" then
          (.returned, w3)
        else
          let p : UpdateDNSRecordParams := ⟨r0.ID, "CNAME", name, value⟩
          let w4 := w3.emit (.update p)
          match d.cfClient.UpdateDNSRecord w4.store d.cfZone p with
          | (s, none) => (.returned, { w4 with store := s })
          | (s, some err) =>
            (.fatal ("error updating DNS record " ++ name ++ ": " ++ err), { w4 with store := s })
    | .ok _ => (.fatal ("did not find DNS record " ++ name), w2)

/-- The table `dnsRecords` of `setDnsToSecondary` (dns.go, lines 77-97). -/
def dnsRecords (idpKey : String) : List DnsRecordSpec :=
  [ ⟨"mfa-api-name", "mfa-api", "mfa-api-value"⟩,
    ⟨"twosv-api-name", "twosv-api", "twosv-api-value"⟩,
    ⟨"support-bot-name", "sherlock", "support-bot-value"⟩,
    ⟨"email-service-name", idpKey ++ "-email-service", "email-service-value"⟩,
    ⟨"id-broker-name", idpKey ++ "-id-broker", "id-broker-value"⟩,
    ⟨"pw-api-name", idpKey ++ "-pw-api", "pw-api-value"⟩,
    ⟨"ssp-name", idpKey ++ "-ssp", "ssp-value"⟩,
    ⟨"id-sync-name", idpKey ++ "-id-sync", "id-sync-value"⟩ ]

/-- The loop of `setDnsToSecondary` (dns.go, lines 99-103) over the remaining
entries; a fatal outcome ends the process, so the remaining entries are not run. -/
def forRecords {σ : Type} (d : DnsCommand σ) (getOption : String → String → String)
    (answers : Nat → String) : List DnsRecordSpec → World σ → Outcome × World σ
  | [], w => (.returned, w)
  | record :: rest, w =>
    let name := getOption record.optionName record.defaultName
    let value := getOption record.optionValue ""
    match setCloudflareCname d answers name value w with
    | (.returned, w1) => forRecords d getOption answers rest w1
    | (.fatal msg, w1) => (.fatal msg, w1)

/-- The method `setDnsToSecondary` (dns.go, lines 74-104). -/
def setDnsToSecondary {σ : Type} (d : DnsCommand σ) (getOption : String → String → String)
    (answers : Nat → String) (idpKey : String) (w : World σ) : Outcome × World σ :=
  forRecords d getOption answers (dnsRecords idpKey)
    (w.emit (.out "Setting DNS records to secondary...\n"))

/-! ## A concrete store and option source, for runs on explicit inputs -/

/-- A zone store kept as the list of its records: a lookup gives the records
with exactly the name asked for, an update sets the content of the records
with the identifier of the request and always succeeds. -/
def listStore : CfClient (List DNSRecord) where
  ListDNSRecords := fun s _ q => .ok (s.filter (fun r => r.Name = q.Name))
  UpdateDNSRecord := fun s _ p =>
    (s.map (fun r => if r.ID = p.ID then { r with Content := p.Content } else r), none)

/-- An option source given by the list of the options that are set. -/
def optionsOf (set : List (String × String)) (key dflt : String) : String :=
  match set.lookup key with
  | some v => v
  | none => dflt

/-- A fresh run over a store. -/
def World.start {σ : Type} (s : σ) : World σ := ⟨s, 0, []⟩

/-- The running example: zone example.com, one record for acme-id-broker. -/
def exampleStore : List DNSRecord :=
  [⟨"id-1", "CNAME", "acme-id-broker.example.com", "old-target.example.com"⟩]

/-- The command of the running example, in test mode or not. -/
def exampleCommand (testMode : Bool) : DnsCommand (List DNSRecord) :=
  ⟨listStore, "zone-1", "example.com", testMode⟩

/-! ## Abbreviations used in the statements -/


/-- The fully-qualified name a call looks up. -/
def fqdn {σ : Type} (d : DnsCommand σ) (name : String) : ListDNSRecordsParams :=
  ⟨name ++ "." ++ d.domainName⟩

/-- The first progress line of a call with a value. -/
def arrowLine {σ : Type} (d : DnsCommand σ) (name value : String) : Event :=
  .out ("  " ++ name ++ "." ++ d.domainName ++ " --> " ++ value ++ "\n")


/-- The events a run added to the trace, given the world it started from and the
world it ended in. -/
def newEvents {σ : Type} (before after : World σ) : List Event :=
  after.trace.drop before.trace.length

/-- The (name, value) pair the loop of `setDnsToSecondary` computes for an entry
(dns.go, lines 100-101). -/
def resolve (getOption : String → String → String) (record : DnsRecordSpec) : String × String :=
  (getOption record.optionName record.defaultName, getOption record.optionValue "")

/-- Options of a run in which id-broker gets a new target and pw-api a value although
the zone has no record for it. -/
def abortingOptions : String → String → String :=
  optionsOf [("id-broker-value", "new-target.example.com"), ("pw-api-value", "pw.example.net")]

/-- The catalog entries before pw-api, for the key "acme". -/
def entriesBeforePwApi : List DnsRecordSpec :=
  [ ⟨"mfa-api-name", "mfa-api", "mfa-api-value"⟩,
    ⟨"twosv-api-name", "twosv-api", "twosv-api-value"⟩,
    ⟨"support-bot-name", "sherlock", "support-bot-value"⟩,
    ⟨"email-service-name", "acme" ++ "-email-service", "email-service-value"⟩,
    ⟨"id-broker-name", "acme" ++ "-id-broker", "id-broker-value"⟩ ]

/-- The catalog entries after pw-api, for the key "acme". -/
def entriesAfterPwApi : List DnsRecordSpec :=
  [ ⟨"ssp-name", "acme" ++ "-ssp", "ssp-value"⟩,
    ⟨"id-sync-name", "acme" ++ "-id-sync", "id-sync-value"⟩ ]

/-- The world in which the run of the example reaches pw-api: the update of id-broker
has been applied. -/
def worldAtPwApi : World (List DNSRecord) :=
  (forRecords (exampleCommand false) abortingOptions (fun _ => "yes") entriesBeforePwApi
    ((World.start exampleStore).emit (.out "Setting DNS records to secondary...\n"))).2

/-- A zone with no record at all. -/
def emptyZone : List DNSRecord := []

/-- Options that give mfa-api a value and nothing else. -/
def mfaOnlyOptions : String → String → String :=
  optionsOf [("mfa-api-value", "mfa.example.net")]

/-- Options that give id-broker a new target and nothing else. -/
def idBrokerOptions : String → String → String :=
  optionsOf [("id-broker-value", "new-target.example.com")]

/-- Options in which two catalog entries are given the same record name and
different values. -/
def sharedNameOptions : String → String → String :=
  optionsOf [("mfa-api-name", "shared"), ("mfa-api-value", "a.example.net"),
    ("twosv-api-name", "shared"), ("twosv-api-value", "b.example.net")]

/-- A zone with one record, for the name "shared". -/
def sharedStore : List DNSRecord :=
  [⟨"id-9", "CNAME", "shared.example.com", "old.example.net"⟩]

/-- The states of the list-backed store in which record identifiers are unique. -/
def uniqueIds (s : List DNSRecord) : Prop := (s.map (fun r => r.ID)).Nodup

/-- The store assumption of the idempotence property, on the states `good`: an update
keyed by the identifier of the single record a lookup returns succeeds, leads to a
`good` state, makes that lookup return the record with the content of the request, and
leaves every other lookup as it was. -/
def UpdateSetsContent {σ : Type} (d : DnsCommand σ) (good : σ → Prop) : Prop :=
  ∀ (s : σ) (q : ListDNSRecordsParams) (r : DNSRecord) (p : UpdateDNSRecordParams),
    good s → d.cfClient.ListDNSRecords s d.cfZone q = .ok [r] → p.ID = r.ID →
    (d.cfClient.UpdateDNSRecord s d.cfZone p).2 = none
    ∧ good (d.cfClient.UpdateDNSRecord s d.cfZone p).1
    ∧ d.cfClient.ListDNSRecords (d.cfClient.UpdateDNSRecord s d.cfZone p).1 d.cfZone q =
        .ok [{ r with Content := p.Content }]
    ∧ ∀ q2 : ListDNSRecordsParams, q2 ≠ q →
        d.cfClient.ListDNSRecords (d.cfClient.UpdateDNSRecord s d.cfZone p).1 d.cfZone q2 =
          d.cfClient.ListDNSRecords s d.cfZone q2

/-- The entries of a list on which a run over store state `s` does nothing but look
up: each entry has no value, or its record is there once with the desired content, or
its lookup does not give exactly one record (the run ends there). -/
def Settled {σ : Type} (d : DnsCommand σ) (getOption : String → String → String) (s : σ) :
    List DnsRecordSpec → Prop
  | [] => True
  | record :: rest =>
    (getOption record.optionValue "" = "" ∧ Settled d getOption s rest)
    ∨ (getOption record.optionValue "" ≠ "" ∧
        ((∃ r, d.cfClient.ListDNSRecords s d.cfZone
              (fqdn d (getOption record.optionName record.defaultName)) = .ok [r] ∧
            r.Content = getOption record.optionValue "") ∧ Settled d getOption s rest
         ∨ ¬ ∃ r, d.cfClient.ListDNSRecords s d.cfZone
              (fqdn d (getOption record.optionName record.defaultName)) = .ok [r]))

/-- The names the loop resolves for the entries that have a value. -/
def namesWithValue (getOption : String → String → String) (l : List DnsRecordSpec) :
    List String :=
  (l.filter (fun r => getOption r.optionValue "" ≠ "")).map
    (fun r => getOption r.optionName r.defaultName)
/-! ## One call of `setCloudflareCname`, case by case -/

theorem cname_empty {σ : Type} (d : DnsCommand σ) (answers : Nat → String)
    (name : String) (w : World σ) :
    setCloudflareCname d answers name "" w =
      (.returned, ⟨w.store, w.asked, w.trace ++
        [.call name "", .out ("  skipping " ++ name ++ " (no value provided)\n")]⟩) := by
  simp [setCloudflareCname, World.emit]

theorem cname_lookup_error {σ : Type} (d : DnsCommand σ) (answers : Nat → String)
    (name value : String) (w : World σ) (err : String) (hv : value ≠ "")
    (hl : d.cfClient.ListDNSRecords w.store d.cfZone (fqdn d name) = .error err) :
    setCloudflareCname d answers name value w =
      (.fatal ("error finding DNS record " ++ name ++ ": " ++ err),
        ⟨w.store, w.asked, w.trace ++
          [.call name value, arrowLine d name value, .lookup (fqdn d name)]⟩) := by
  simp only [fqdn] at hl
  simp [setCloudflareCname, World.emit, hv, hl, fqdn, arrowLine]

theorem cname_not_one {σ : Type} (d : DnsCommand σ) (answers : Nat → String)
    (name value : String) (w : World σ) (rs : List DNSRecord) (hv : value ≠ "")
    (hl : d.cfClient.ListDNSRecords w.store d.cfZone (fqdn d name) = .ok rs)
    (hn : rs.length ≠ 1) :
    setCloudflareCname d answers name value w =
      (.fatal ("did not find DNS record " ++ name),
        ⟨w.store, w.asked, w.trace ++
          [.call name value, arrowLine d name value, .lookup (fqdn d name)]⟩) := by
  simp only [fqdn] at hl
  match rs, hn with
  | [], _ => simp [setCloudflareCname, World.emit, hv, hl, fqdn, arrowLine]
  | [_], h => exact absurd rfl h
  | _ :: _ :: _, _ => simp [setCloudflareCname, World.emit, hv, hl, fqdn, arrowLine]

theorem cname_same {σ : Type} (d : DnsCommand σ) (answers : Nat → String)
    (name value : String) (w : World σ) (r : DNSRecord) (hv : value ≠ "")
    (hl : d.cfClient.ListDNSRecords w.store d.cfZone (fqdn d name) = .ok [r])
    (hc : r.Content = value) :
    setCloudflareCname d answers name value w =
      (.returned, ⟨w.store, w.asked, w.trace ++
        [.call name value, arrowLine d name value, .lookup (fqdn d name),
          .out ("CNAME " ++ name ++ " is already set to " ++ value ++ "\n")]⟩) := by
  simp only [fqdn] at hl
  simp [setCloudflareCname, World.emit, hv, hl, hc, fqdn, arrowLine]

theorem cname_testMode {σ : Type} (d : DnsCommand σ) (answers : Nat → String)
    (name value : String) (w : World σ) (r : DNSRecord) (hv : value ≠ "")
    (hl : d.cfClient.ListDNSRecords w.store d.cfZone (fqdn d name) = .ok [r])
    (hc : r.Content ≠ value) (ht : d.testMode = true) :
    setCloudflareCname d answers name value w =
      (.returned, ⟨w.store, w.asked, w.trace ++
        [.call name value, arrowLine d name value, .lookup (fqdn d name),
          .out "  test mode: skipping API call\n"]⟩) := by
  simp only [fqdn] at hl
  simp [setCloudflareCname, World.emit, hv, hl, hc, ht, fqdn, arrowLine]

theorem cname_declined {σ : Type} (d : DnsCommand σ) (answers : Nat → String)
    (name value : String) (w : World σ) (r : DNSRecord) (hv : value ≠ "")
    (hl : d.cfClient.ListDNSRecords w.store d.cfZone (fqdn d name) = .ok [r])
    (hc : r.Content ≠ value) (ht : d.testMode = false) (ha : answers w.asked ≠ "yes") :
    setCloudflareCname d answers name value w =
      (.returned, ⟨w.store, w.asked + 1, w.trace ++
        [.call name value, arrowLine d name value, .lookup (fqdn d name),
          .prompt promptMessage]⟩) := by
  simp only [fqdn] at hl
  simp [setCloudflareCname, World.emit, hv, hl, hc, ht, ha, fqdn, arrowLine]

theorem cname_accepted {σ : Type} (d : DnsCommand σ) (answers : Nat → String)
    (name value : String) (w : World σ) (r : DNSRecord) (hv : value ≠ "")
    (hl : d.cfClient.ListDNSRecords w.store d.cfZone (fqdn d name) = .ok [r])
    (hc : r.Content ≠ value) (ht : d.testMode = false) (ha : answers w.asked = "yes") :
    setCloudflareCname d answers name value w =
      (match (d.cfClient.UpdateDNSRecord w.store d.cfZone ⟨r.ID, "CNAME", name, value⟩).2 with
        | none => Outcome.returned
        | some err => Outcome.fatal ("error updating DNS record " ++ name ++ ": " ++ err),
       ⟨(d.cfClient.UpdateDNSRecord w.store d.cfZone ⟨r.ID, "CNAME", name, value⟩).1,
        w.asked + 1, w.trace ++
        [.call name value, arrowLine d name value, .lookup (fqdn d name),
          .prompt promptMessage, .update ⟨r.ID, "CNAME", name, value⟩]⟩) := by
  simp only [fqdn] at hl
  simp only [setCloudflareCname, World.emit, hv, hl, hc, ht, ha, fqdn, arrowLine]
  rcases hu : d.cfClient.UpdateDNSRecord w.store d.cfZone ⟨r.ID, "CNAME", name, value⟩
    with ⟨s, _ | err⟩ <;> simp [hu]

/-- Every call of `setCloudflareCname` falls in one of seven cases, each with its
outcome, its final store and prompt count, and the events it added. -/
theorem cname_cases {σ : Type} (d : DnsCommand σ) (answers : Nat → String)
    (name value : String) (w : World σ) :
    (value = "" ∧ setCloudflareCname d answers name value w =
        (.returned, ⟨w.store, w.asked, w.trace ++
          [.call name value, .out ("  skipping " ++ name ++ " (no value provided)\n")]⟩))
    ∨ (value ≠ "" ∧ ∃ err,
        d.cfClient.ListDNSRecords w.store d.cfZone (fqdn d name) = .error err ∧
        setCloudflareCname d answers name value w =
          (.fatal ("error finding DNS record " ++ name ++ ": " ++ err),
            ⟨w.store, w.asked, w.trace ++
              [.call name value, arrowLine d name value, .lookup (fqdn d name)]⟩))
    ∨ (value ≠ "" ∧ ∃ rs,
        d.cfClient.ListDNSRecords w.store d.cfZone (fqdn d name) = .ok rs ∧ rs.length ≠ 1 ∧
        setCloudflareCname d answers name value w =
          (.fatal ("did not find DNS record " ++ name),
            ⟨w.store, w.asked, w.trace ++
              [.call name value, arrowLine d name value, .lookup (fqdn d name)]⟩))
    ∨ (value ≠ "" ∧ ∃ r,
        d.cfClient.ListDNSRecords w.store d.cfZone (fqdn d name) = .ok [r] ∧
        r.Content = value ∧
        setCloudflareCname d answers name value w =
          (.returned, ⟨w.store, w.asked, w.trace ++
            [.call name value, arrowLine d name value, .lookup (fqdn d name),
              .out ("CNAME " ++ name ++ " is already set to " ++ value ++ "\n")]⟩))
    ∨ (value ≠ "" ∧ ∃ r,
        d.cfClient.ListDNSRecords w.store d.cfZone (fqdn d name) = .ok [r] ∧
        r.Content ≠ value ∧ d.testMode = true ∧
        setCloudflareCname d answers name value w =
          (.returned, ⟨w.store, w.asked, w.trace ++
            [.call name value, arrowLine d name value, .lookup (fqdn d name),
              .out "  test mode: skipping API call\n"]⟩))
    ∨ (value ≠ "" ∧ ∃ r,
        d.cfClient.ListDNSRecords w.store d.cfZone (fqdn d name) = .ok [r] ∧
        r.Content ≠ value ∧ d.testMode = false ∧ answers w.asked ≠ "yes" ∧
        setCloudflareCname d answers name value w =
          (.returned, ⟨w.store, w.asked + 1, w.trace ++
            [.call name value, arrowLine d name value, .lookup (fqdn d name),
              .prompt promptMessage]⟩))
    ∨ (value ≠ "" ∧ ∃ r,
        d.cfClient.ListDNSRecords w.store d.cfZone (fqdn d name) = .ok [r] ∧
        r.Content ≠ value ∧ d.testMode = false ∧ answers w.asked = "yes" ∧
        setCloudflareCname d answers name value w =
          (match (d.cfClient.UpdateDNSRecord w.store d.cfZone ⟨r.ID, "CNAME", name, value⟩).2 with
            | none => Outcome.returned
            | some err => Outcome.fatal ("error updating DNS record " ++ name ++ ": " ++ err),
           ⟨(d.cfClient.UpdateDNSRecord w.store d.cfZone ⟨r.ID, "CNAME", name, value⟩).1,
            w.asked + 1, w.trace ++
            [.call name value, arrowLine d name value, .lookup (fqdn d name),
              .prompt promptMessage, .update ⟨r.ID, "CNAME", name, value⟩]⟩)) := by
  by_cases hv : value = ""
  · left; subst hv; exact ⟨rfl, cname_empty d answers name w⟩
  right
  rcases hl : d.cfClient.ListDNSRecords w.store d.cfZone (fqdn d name) with err | rs
  · left; exact ⟨hv, err, rfl, cname_lookup_error d answers name value w err hv hl⟩
  right
  by_cases hn : rs.length = 1
  swap
  · left; exact ⟨hv, rs, rfl, hn, cname_not_one d answers name value w rs hv hl hn⟩
  right
  obtain ⟨r, rfl⟩ := List.length_eq_one.mp hn
  by_cases hc : r.Content = value
  · left; exact ⟨hv, r, rfl, hc, cname_same d answers name value w r hv hl hc⟩
  right
  by_cases ht : d.testMode = true
  · left; exact ⟨hv, r, rfl, hc, ht, cname_testMode d answers name value w r hv hl hc ht⟩
  right
  have ht : d.testMode = false := by simpa using ht
  by_cases ha : answers w.asked = "yes"
  · right; exact ⟨hv, r, rfl, hc, ht, ha, cname_accepted d answers name value w r hv hl hc ht ha⟩
  · left; exact ⟨hv, r, rfl, hc, ht, ha, cname_declined d answers name value w r hv hl hc ht ha⟩

/-! ## Traces and the loop -/

theorem updatesOf_append (a b : List Event) :
    updatesOf (a ++ b) = updatesOf a ++ updatesOf b := by
  simp [updatesOf, List.filterMap_append]

theorem lookupsOf_append (a b : List Event) :
    lookupsOf (a ++ b) = lookupsOf a ++ lookupsOf b := by
  simp [lookupsOf, List.filterMap_append]

theorem callsOf_append (a b : List Event) :
    callsOf (a ++ b) = callsOf a ++ callsOf b := by
  simp [callsOf, List.filterMap_append]

theorem newEvents_append {σ : Type} (w : World σ) (s : σ) (n : Nat) (es : List Event) :
    newEvents w ⟨s, n, w.trace ++ es⟩ = es := by
  simp [newEvents]

/-- The loop over a concatenation runs the first part, and the second part only
when the first part returned. -/
theorem forRecords_append {σ : Type} (d : DnsCommand σ) (getOption : String → String → String)
    (answers : Nat → String) (pre post : List DnsRecordSpec) (w : World σ) :
    forRecords d getOption answers (pre ++ post) w =
      match forRecords d getOption answers pre w with
      | (.returned, w1) => forRecords d getOption answers post w1
      | (.fatal msg, w1) => (.fatal msg, w1) := by
  induction pre generalizing w with
  | nil => simp [forRecords]
  | cons record rest ih =>
    simp only [List.cons_append, forRecords]
    rcases h : setCloudflareCname d answers (getOption record.optionName record.defaultName)
      (getOption record.optionValue "") w with ⟨o, w1⟩
    cases o with
    | returned => simp [ih]
    | fatal msg => simp

/-- A call adds events to the trace, the first of which records the call, and no
other call event. -/
theorem cname_trace {σ : Type} (d : DnsCommand σ) (answers : Nat → String)
    (name value : String) (w : World σ) :
    ∃ es, (setCloudflareCname d answers name value w).2.trace = w.trace ++ es ∧
      callsOf es = [(name, value)] := by
  rcases cname_cases d answers name value w with h | h | h | h | h | h | h
  · exact ⟨_, by rw [h.2], by simp [callsOf]⟩
  · obtain ⟨_, err, _, h⟩ := h
    exact ⟨_, by rw [h], by simp [callsOf, arrowLine]⟩
  · obtain ⟨_, rs, _, _, h⟩ := h
    exact ⟨_, by rw [h], by simp [callsOf, arrowLine]⟩
  · obtain ⟨_, r, _, _, h⟩ := h
    exact ⟨_, by rw [h], by simp [callsOf, arrowLine]⟩
  · obtain ⟨_, r, _, _, _, h⟩ := h
    exact ⟨_, by rw [h], by simp [callsOf, arrowLine]⟩
  · obtain ⟨_, r, _, _, _, _, h⟩ := h
    exact ⟨_, by rw [h], by simp [callsOf, arrowLine]⟩
  · obtain ⟨_, r, _, _, _, _, h⟩ := h
    exact ⟨_, by rw [h], by simp [callsOf, arrowLine]⟩

/-- The calls the loop makes are the resolved pairs of a prefix of its entries, in
order; the prefix is all of them when the loop returns. -/
theorem forRecords_calls {σ : Type} (d : DnsCommand σ) (getOption : String → String → String)
    (answers : Nat → String) (l : List DnsRecordSpec) (w : World σ) :
    ∃ es k, (forRecords d getOption answers l w).2.trace = w.trace ++ es ∧
      k ≤ l.length ∧ (l ≠ [] → 1 ≤ k) ∧
      callsOf es = (l.map (resolve getOption)).take k ∧
      ((forRecords d getOption answers l w).1 = .returned → k = l.length) := by
  induction l generalizing w with
  | nil => exact ⟨[], 0, by simp [forRecords], le_refl _, by simp, by simp [callsOf], fun _ => rfl⟩
  | cons record rest ih =>
    obtain ⟨es, hes, hc⟩ := cname_trace d answers
      (getOption record.optionName record.defaultName) (getOption record.optionValue "") w
    simp only [forRecords]
    rcases h : setCloudflareCname d answers (getOption record.optionName record.defaultName)
      (getOption record.optionValue "") w with ⟨o, w1⟩
    rw [h] at hes
    simp only at hes
    cases o with
    | fatal msg =>
      refine ⟨es, 1, hes, by simp, fun _ => le_refl _, ?_, ?_⟩
      · simp [hc, resolve]
      · intro hf; simp at hf
    | returned =>
      obtain ⟨es2, k, hes2, hk, _, hc2, hr2⟩ := ih w1
      refine ⟨es ++ es2, k + 1, ?_, by simpa using hk, fun _ => by omega, ?_, ?_⟩
      · simp only [hes2, hes, List.append_assoc]
      · rw [callsOf_append, hc, hc2]; simp [resolve]
      · intro hf
        simp only at hf
        simp [hr2 hf]

/-- The calls a run of `setDnsToSecondary` makes are the resolved pairs of the first k
catalog entries, in order; k is the length of the catalog when the run returns. -/
theorem run_calls_prefix {σ : Type} (d : DnsCommand σ)
    (getOption : String → String → String) (answers : Nat → String) (idpKey : String)
    (w : World σ) :
    ∃ k, 1 ≤ k ∧ k ≤ (dnsRecords idpKey).length ∧
      callsOf (newEvents w (setDnsToSecondary d getOption answers idpKey w).2) =
        ((dnsRecords idpKey).map (resolve getOption)).take k ∧
      ((setDnsToSecondary d getOption answers idpKey w).1 = .returned →
        callsOf (newEvents w (setDnsToSecondary d getOption answers idpKey w).2) =
          (dnsRecords idpKey).map (resolve getOption)) := by
  obtain ⟨es, k, hes, hk, hk1, hc, hr⟩ := forRecords_calls d getOption answers
    (dnsRecords idpKey) (w.emit (.out "Setting DNS records to secondary...\n"))
  have hnew : callsOf (newEvents w (setDnsToSecondary d getOption answers idpKey w).2) =
      ((dnsRecords idpKey).map (resolve getOption)).take k := by
    unfold setDnsToSecondary newEvents
    rw [hes]
    simp only [World.emit, List.append_assoc, List.drop_left]
    rw [callsOf_append, hc]
    simp [callsOf]
  refine ⟨k, hk1 (by simp [dnsRecords]), hk, hnew, ?_⟩
  intro hret
  have hkl : k = (dnsRecords idpKey).length := hr hret
  rw [hnew, hkl, ← List.length_map (dnsRecords idpKey) (resolve getOption), List.take_length]

/-! ## Claims about one record -/

/-- Claim C1: with a non-empty value, a lookup of name + "." + domainName that returns
exactly one record `r` whose content differs from the value, test mode off and the
prompt answering exactly "yes", `setCloudflareCname` does exactly one lookup followed by
exactly one update, and the update carries `r.ID`, type "CNAME" and the value as content. -/
theorem setCloudflareCname_accept_updates {σ : Type} (d : DnsCommand σ)
    (answers : Nat → String) (name value : String) (w : World σ) (r : DNSRecord)
    (hv : value ≠ "")
    (hl : d.cfClient.ListDNSRecords w.store d.cfZone ⟨name ++ "." ++ d.domainName⟩ = .ok [r])
    (hc : r.Content ≠ value) (ht : d.testMode = false) (ha : answers w.asked = "yes") :
    newEvents w (setCloudflareCname d answers name value w).2 =
        [.call name value,
         .out ("  " ++ name ++ "." ++ d.domainName ++ " --> " ++ value ++ "\n"),
         .lookup ⟨name ++ "." ++ d.domainName⟩,
         .prompt promptMessage,
         .update ⟨r.ID, "CNAME", name, value⟩]
    ∧ lookupsOf (newEvents w (setCloudflareCname d answers name value w).2) =
        [⟨name ++ "." ++ d.domainName⟩]
    ∧ updatesOf (newEvents w (setCloudflareCname d answers name value w).2) =
        [⟨r.ID, "CNAME", name, value⟩] := by
  have h := cname_accepted d answers name value w r hv hl hc ht ha
  have hn : newEvents w (setCloudflareCname d answers name value w).2 =
        [.call name value, arrowLine d name value, .lookup (fqdn d name),
          .prompt promptMessage, .update ⟨r.ID, "CNAME", name, value⟩] := by
    rw [h]; exact newEvents_append w _ _ _
  refine ⟨hn, ?_, ?_⟩
  · rw [hn]; simp [lookupsOf, arrowLine, fqdn]
  · rw [hn]; simp [updatesOf, arrowLine]

theorem setCloudflareCname_accept_updates_witness :
    ("new-target.example.com" ≠ "" ∧ "old-target.example.com" ≠ "new-target.example.com") ∧
    updatesOf (newEvents (World.start exampleStore)
      (setCloudflareCname (exampleCommand false) (fun _ => "yes") "acme-id-broker"
        "new-target.example.com" (World.start exampleStore)).2) =
      [⟨"id-1", "CNAME", "acme-id-broker", "new-target.example.com"⟩] :=
  ⟨by decide,
   (setCloudflareCname_accept_updates (exampleCommand false) (fun _ => "yes") "acme-id-broker"
      "new-target.example.com" (World.start exampleStore)
      ⟨"id-1", "CNAME", "acme-id-broker.example.com", "old-target.example.com"⟩
      (by decide) rfl (by decide) rfl rfl).2.2⟩

/-- Claim C2: with a non-empty value, a lookup that returns exactly one record whose
content differs, test mode off and the prompt answering anything other than exactly
"yes", `setCloudflareCname` returns normally with no update call and the store untouched,
and the loop of `setDnsToSecondary` goes on with the next catalog record; the empty
line, "y", "yes " with a trailing space and "YES" are such answers. -/
theorem setCloudflareCname_decline_no_update {σ : Type} (d : DnsCommand σ)
    (answers : Nat → String) (name value : String) (w : World σ) (r : DNSRecord)
    (hv : value ≠ "")
    (hl : d.cfClient.ListDNSRecords w.store d.cfZone ⟨name ++ "." ++ d.domainName⟩ = .ok [r])
    (hc : r.Content ≠ value) (ht : d.testMode = false) (ha : answers w.asked ≠ "yes") :
    (setCloudflareCname d answers name value w).1 = .returned
    ∧ (setCloudflareCname d answers name value w).2.store = w.store
    ∧ newEvents w (setCloudflareCname d answers name value w).2 =
        [.call name value,
         .out ("  " ++ name ++ "." ++ d.domainName ++ " --> " ++ value ++ "\n"),
         .lookup ⟨name ++ "." ++ d.domainName⟩,
         .prompt promptMessage]
    ∧ updatesOf (newEvents w (setCloudflareCname d answers name value w).2) = []
    ∧ (∀ (getOption : String → String → String) (record : DnsRecordSpec)
        (rest : List DnsRecordSpec), resolve getOption record = (name, value) →
        forRecords d getOption answers (record :: rest) w =
          forRecords d getOption answers rest (setCloudflareCname d answers name value w).2)
    ∧ (∀ a ∈ ["", "y", "yes ", "YES"], a ≠ "yes") := by
  have h := cname_declined d answers name value w r hv hl hc ht ha
  have hn : newEvents w (setCloudflareCname d answers name value w).2 =
        [.call name value, arrowLine d name value, .lookup (fqdn d name),
          .prompt promptMessage] := by
    rw [h]; exact newEvents_append w _ _ _
  refine ⟨by rw [h], by rw [h], hn, ?_, ?_, by decide⟩
  · rw [hn]; simp [updatesOf, arrowLine]
  · intro getOption record rest hr
    simp only [resolve, Prod.mk.injEq] at hr
    simp only [forRecords, hr.1, hr.2]
    rw [h]

theorem setCloudflareCname_decline_no_update_witness :
    ("yes " ≠ "yes") ∧
    ((setCloudflareCname (exampleCommand false) (fun _ => "yes ") "acme-id-broker"
        "new-target.example.com" (World.start exampleStore)).1 = .returned
     ∧ (setCloudflareCname (exampleCommand false) (fun _ => "yes ") "acme-id-broker"
        "new-target.example.com" (World.start exampleStore)).2.store = exampleStore) :=
  ⟨by decide,
   let h := setCloudflareCname_decline_no_update (exampleCommand false) (fun _ => "yes ")
      "acme-id-broker" "new-target.example.com" (World.start exampleStore)
      ⟨"id-1", "CNAME", "acme-id-broker.example.com", "old-target.example.com"⟩
      (by decide) rfl (by decide) rfl (by decide)
   ⟨h.1, h.2.1⟩⟩

/-- Claim C5: with the empty string as value, `setCloudflareCname` makes no lookup and
no update, does not consult the prompt, prints the "skipping" line and returns normally,
for every name, store, test mode and sequence of answers; so a catalog entry whose value
option is unset is skipped and the loop goes on with the next entry. -/
theorem setCloudflareCname_empty_value_skips {σ : Type} (d : DnsCommand σ)
    (answers : Nat → String) (name : String) (w : World σ) :
    setCloudflareCname d answers name "" w =
      (.returned, ⟨w.store, w.asked, w.trace ++
        [.call name "", .out ("  skipping " ++ name ++ " (no value provided)\n")]⟩)
    ∧ lookupsOf (newEvents w (setCloudflareCname d answers name "" w).2) = []
    ∧ updatesOf (newEvents w (setCloudflareCname d answers name "" w).2) = []
    ∧ (∀ e ∈ newEvents w (setCloudflareCname d answers name "" w).2, e.isPrompt = false)
    ∧ (∀ (getOption : String → String → String) (record : DnsRecordSpec)
        (rest : List DnsRecordSpec), getOption record.optionValue "" = "" →
        forRecords d getOption answers (record :: rest) w =
          forRecords d getOption answers rest ⟨w.store, w.asked, w.trace ++
            [.call (getOption record.optionName record.defaultName) "",
             .out ("  skipping " ++ getOption record.optionName record.defaultName ++
                " (no value provided)\n")]⟩) := by
  have h := cname_empty d answers name w
  have hn : newEvents w (setCloudflareCname d answers name "" w).2 =
      [.call name "", .out ("  skipping " ++ name ++ " (no value provided)\n")] := by
    rw [h]; exact newEvents_append w _ _ _
  refine ⟨h, ?_, ?_, ?_, ?_⟩
  · rw [hn]; simp [lookupsOf]
  · rw [hn]; simp [updatesOf]
  · rw [hn]; simp [Event.isPrompt]
  · intro getOption record rest hr
    simp only [forRecords, hr]
    rw [cname_empty]

theorem setCloudflareCname_empty_value_skips_witness :
    optionsOf [] "mfa-api-value" "" = "" ∧
    forRecords (exampleCommand false) (optionsOf []) (fun _ => "yes")
        (⟨"mfa-api-name", "mfa-api", "mfa-api-value"⟩ :: []) (World.start exampleStore) =
      forRecords (exampleCommand false) (optionsOf []) (fun _ => "yes") []
        ⟨exampleStore, 0, [] ++
          [.call (optionsOf [] "mfa-api-name" "mfa-api") "",
           .out ("  skipping " ++ optionsOf [] "mfa-api-name" "mfa-api" ++
              " (no value provided)\n")]⟩ :=
  ⟨rfl, (setCloudflareCname_empty_value_skips (exampleCommand false) (fun _ => "yes") "mfa-api"
      (World.start exampleStore)).2.2.2.2 (optionsOf []) ⟨"mfa-api-name", "mfa-api", "mfa-api-value"⟩
      [] rfl⟩

/-! ## Claims about a whole run -/

/-- In test mode a call leaves the store and the prompt count alone, adds neither a
prompt nor an update to the trace, and does not depend on the answers. -/
theorem cname_testMode_quiet {σ : Type} (d : DnsCommand σ) (ht : d.testMode = true)
    (answers : Nat → String) (name value : String) (w : World σ) :
    (∃ es, (setCloudflareCname d answers name value w).2 = ⟨w.store, w.asked, w.trace ++ es⟩ ∧
      ∀ e ∈ es, e.isUpdate = false ∧ e.isPrompt = false)
    ∧ ∀ answers2 : Nat → String,
        setCloudflareCname d answers2 name value w = setCloudflareCname d answers name value w := by
  constructor
  · rcases cname_cases d answers name value w with h | h | h | h | h | h | h
    · exact ⟨_, by rw [h.2], by simp [Event.isUpdate, Event.isPrompt]⟩
    · obtain ⟨_, err, _, h⟩ := h
      exact ⟨_, by rw [h], by simp [Event.isUpdate, Event.isPrompt, arrowLine]⟩
    · obtain ⟨_, rs, _, _, h⟩ := h
      exact ⟨_, by rw [h], by simp [Event.isUpdate, Event.isPrompt, arrowLine]⟩
    · obtain ⟨_, r, _, _, h⟩ := h
      exact ⟨_, by rw [h], by simp [Event.isUpdate, Event.isPrompt, arrowLine]⟩
    · obtain ⟨_, r, _, _, _, h⟩ := h
      exact ⟨_, by rw [h], by simp [Event.isUpdate, Event.isPrompt, arrowLine]⟩
    · obtain ⟨_, r, _, _, hf, _⟩ := h
      rw [ht] at hf; exact absurd hf (by decide)
    · obtain ⟨_, r, _, _, hf, _⟩ := h
      rw [ht] at hf; exact absurd hf (by decide)
  · intro answers2
    simp [setCloudflareCname, ht]

/-- In test mode the loop leaves the store and the prompt count alone, adds neither a
prompt nor an update to the trace, and does not depend on the answers. -/
theorem forRecords_testMode_quiet {σ : Type} (d : DnsCommand σ) (ht : d.testMode = true)
    (getOption : String → String → String) (answers : Nat → String)
    (l : List DnsRecordSpec) (w : World σ) :
    (∃ es, (forRecords d getOption answers l w).2 = ⟨w.store, w.asked, w.trace ++ es⟩ ∧
      ∀ e ∈ es, e.isUpdate = false ∧ e.isPrompt = false)
    ∧ ∀ answers2 : Nat → String,
        forRecords d getOption answers2 l w = forRecords d getOption answers l w := by
  induction l generalizing w with
  | nil => exact ⟨⟨[], by simp [forRecords], by simp⟩, fun _ => by simp [forRecords]⟩
  | cons record rest ih =>
    obtain ⟨⟨es, hes, hq⟩, hind⟩ := cname_testMode_quiet d ht answers
      (getOption record.optionName record.defaultName) (getOption record.optionValue "") w
    constructor
    · simp only [forRecords]
      rcases h : setCloudflareCname d answers (getOption record.optionName record.defaultName)
        (getOption record.optionValue "") w with ⟨o, w1⟩
      rw [h] at hes
      simp only at hes
      cases o with
      | fatal msg => exact ⟨es, hes, hq⟩
      | returned =>
        obtain ⟨⟨es2, hes2, hq2⟩, _⟩ := ih w1
        refine ⟨es ++ es2, ?_, ?_⟩
        · rw [hes2, hes]; simp only [List.append_assoc]
        · intro e he
          rcases List.mem_append.mp he with he | he
          · exact hq e he
          · exact hq2 e he
    · intro answers2
      simp only [forRecords, hind answers2]
      rcases setCloudflareCname d answers (getOption record.optionName record.defaultName)
        (getOption record.optionValue "") w with ⟨o, w1⟩
      cases o with
      | fatal msg => rfl
      | returned => exact (ih w1).2 answers2

/-- Claim C3: in test mode, for every key, option source, store and sequence of answers,
a whole run of `setDnsToSecondary` issues no update call and never consults the prompt
(the store and the prompt count are as before the run), and the run, hence the store
calls it makes, is the same for every other sequence of answers. -/
theorem setDnsToSecondary_testMode_no_update {σ : Type} (d : DnsCommand σ)
    (ht : d.testMode = true) (getOption : String → String → String)
    (answers : Nat → String) (idpKey : String) (w : World σ) :
    (setDnsToSecondary d getOption answers idpKey w).2.store = w.store
    ∧ (setDnsToSecondary d getOption answers idpKey w).2.asked = w.asked
    ∧ (∀ e ∈ newEvents w (setDnsToSecondary d getOption answers idpKey w).2,
        e.isUpdate = false ∧ e.isPrompt = false)
    ∧ (∀ answers2 : Nat → String,
        setDnsToSecondary d getOption answers2 idpKey w =
          setDnsToSecondary d getOption answers idpKey w) := by
  obtain ⟨⟨es, hes, hq⟩, hind⟩ := forRecords_testMode_quiet d ht getOption answers
    (dnsRecords idpKey) (w.emit (.out "Setting DNS records to secondary...\n"))
  simp only [setDnsToSecondary]
  refine ⟨by rw [hes]; rfl, by rw [hes]; rfl, ?_, hind⟩
  rw [hes]
  simp only [World.emit, List.append_assoc]
  rw [newEvents_append]
  intro e he
  rcases List.mem_append.mp he with he | he
  · simp at he; subst he; simp [Event.isUpdate, Event.isPrompt]
  · exact hq e he

theorem setDnsToSecondary_testMode_no_update_witness :
    (exampleCommand true).testMode = true ∧
    (setDnsToSecondary (exampleCommand true) abortingOptions (fun _ => "yes") "acme"
      (World.start exampleStore)).2.store = exampleStore :=
  ⟨rfl, (setDnsToSecondary_testMode_no_update (exampleCommand true) rfl abortingOptions
    (fun _ => "yes") "acme" (World.start exampleStore)).1⟩

/-- Claim C4: with a non-empty value and a lookup of name + "." + domainName that returns
zero records or two or more, `setCloudflareCname` ends in the fatal outcome after the
lookup, with no prompt and no update; and a run of `setDnsToSecondary` that reaches such
a record ends there: its final world is the world the earlier records left (their updates
included) plus the call, progress line and lookup of this record, with nothing for any
later catalog record. -/
theorem setCloudflareCname_lookup_count_fatal {σ : Type} (d : DnsCommand σ)
    (answers : Nat → String) (name value : String) (w : World σ) (rs : List DNSRecord)
    (hv : value ≠ "")
    (hl : d.cfClient.ListDNSRecords w.store d.cfZone ⟨name ++ "." ++ d.domainName⟩ = .ok rs)
    (hn : rs.length = 0 ∨ 2 ≤ rs.length) :
    setCloudflareCname d answers name value w =
      (.fatal ("did not find DNS record " ++ name), ⟨w.store, w.asked, w.trace ++
        [.call name value,
         .out ("  " ++ name ++ "." ++ d.domainName ++ " --> " ++ value ++ "\n"),
         .lookup ⟨name ++ "." ++ d.domainName⟩]⟩)
    ∧ (∀ e ∈ newEvents w (setCloudflareCname d answers name value w).2,
        e.isPrompt = false ∧ e.isUpdate = false)
    ∧ (∀ (getOption : String → String → String) (idpKey : String)
        (pre : List DnsRecordSpec) (record : DnsRecordSpec) (post : List DnsRecordSpec)
        (w0 : World σ),
        dnsRecords idpKey = pre ++ record :: post →
        resolve getOption record = (name, value) →
        forRecords d getOption answers pre
          (w0.emit (.out "Setting DNS records to secondary...\n")) = (.returned, w) →
        setDnsToSecondary d getOption answers idpKey w0 =
          (.fatal ("did not find DNS record " ++ name), ⟨w.store, w.asked, w.trace ++
            [.call name value,
             .out ("  " ++ name ++ "." ++ d.domainName ++ " --> " ++ value ++ "\n"),
             .lookup ⟨name ++ "." ++ d.domainName⟩]⟩)) := by
  have h := cname_not_one d answers name value w rs hv hl (by omega)
  simp only [arrowLine, fqdn] at h
  refine ⟨h, ?_, ?_⟩
  · rw [h, newEvents_append]
    simp [Event.isUpdate, Event.isPrompt]
  · intro getOption idpKey pre record post w0 hcat hr hpre
    simp only [resolve, Prod.mk.injEq] at hr
    unfold setDnsToSecondary
    rw [hcat, forRecords_append, hpre]
    simp only [forRecords, hr.1, hr.2, h]

theorem setCloudflareCname_lookup_count_fatal_witness :
    ("pw.example.net" ≠ "" ∧ ([] : List DNSRecord).length = 0) ∧
    setDnsToSecondary (exampleCommand false) abortingOptions (fun _ => "yes") "acme"
        (World.start exampleStore) =
      (.fatal ("did not find DNS record " ++ "acme-pw-api"),
        ⟨worldAtPwApi.store, worldAtPwApi.asked, worldAtPwApi.trace ++
          [.call "acme-pw-api" "pw.example.net",
           .out ("  " ++ "acme-pw-api" ++ "." ++ (exampleCommand false).domainName ++ " --> " ++
              "pw.example.net" ++ "\n"),
           .lookup ⟨"acme-pw-api" ++ "." ++ (exampleCommand false).domainName⟩]⟩) :=
  ⟨by decide,
   (setCloudflareCname_lookup_count_fatal (exampleCommand false) (fun _ => "yes") "acme-pw-api"
      "pw.example.net" worldAtPwApi [] (by decide) rfl (Or.inl rfl)).2.2 abortingOptions "acme"
      entriesBeforePwApi ⟨"pw-api-name", "acme" ++ "-pw-api", "pw-api-value"⟩ entriesAfterPwApi
      (World.start exampleStore) rfl rfl rfl⟩

/-! ## Claims about the catalog -/

theorem str_append_ne_of_not_suffix (k s t : String) (h : ¬ (s.data <:+ t.data)) :
    k ++ s ≠ t := by
  intro he
  apply h
  have hd : (k ++ s).data = t.data := by rw [he]
  rw [String.data_append] at hd
  exact ⟨k.data, hd⟩

theorem str_append_left_cancel (k s t : String) (h : s ≠ t) : k ++ s ≠ k ++ t := by
  intro he
  apply h
  have hd : (k ++ s).data = (k ++ t).data := by rw [he]
  rw [String.data_append, String.data_append] at hd
  exact String.ext (List.append_cancel_left hd)

/-- The default names of the catalog are pairwise distinct, for every key. -/
theorem defaultNames_nodup (idpKey : String) :
    ((dnsRecords idpKey).map (fun r => r.defaultName)).Nodup := by
  simp only [dnsRecords, List.map_cons, List.map_nil, List.nodup_cons, List.mem_cons,
    List.mem_singleton, List.not_mem_nil, not_or, List.nodup_nil, and_true, not_false_eq_true]
  refine ⟨⟨?_, ?_, ?_, ?_, ?_, ?_, ?_⟩, ⟨?_, ?_, ?_, ?_, ?_, ?_⟩, ⟨?_, ?_, ?_, ?_, ?_⟩,
    ⟨?_, ?_, ?_, ?_⟩, ⟨?_, ?_, ?_⟩, ⟨?_, ?_⟩, ?_⟩
  all_goals first
    | decide
    | exact (str_append_ne_of_not_suffix _ _ _ (by decide)).symm
    | exact str_append_left_cancel _ _ _ (by decide)

/-- Claim C7, as stated, fails on a run that ends fatally: over a zone with no record,
with a value set for mfa-api only, the run calls `setCloudflareCname` for mfa-api, ends
in the fatal outcome there, and the other seven catalog entries are never reconciled. -/
theorem setDnsToSecondary_abort_skips_entries :
    (setDnsToSecondary ⟨listStore, "zone-1", "example.com", false⟩ mfaOnlyOptions
        (fun _ => "yes") "acme" (World.start emptyZone)).1 =
      .fatal "did not find DNS record mfa-api"
    ∧ callsOf (newEvents (World.start emptyZone)
        (setDnsToSecondary ⟨listStore, "zone-1", "example.com", false⟩ mfaOnlyOptions
          (fun _ => "yes") "acme" (World.start emptyZone)).2) =
      [("mfa-api", "mfa.example.net")]
    ∧ callsOf (newEvents (World.start emptyZone)
        (setDnsToSecondary ⟨listStore, "zone-1", "example.com", false⟩ mfaOnlyOptions
          (fun _ => "yes") "acme" (World.start emptyZone)).2) ≠
      (dnsRecords "acme").map (resolve mfaOnlyOptions) := by
  decide

/-- Claim C7, amended: for every key and option source, the pairs the loop of
`setDnsToSecondary` resolves are those of the eight catalog entries in catalog order,
name = get("<service>-name", default) and value = get("<service>-value", ""), the default
being idpKey + "-" + service for email-service, id-broker, pw-api, ssp and id-sync; the
calls of `setCloudflareCname` a run makes are the first k of these pairs in order, once
each, with 1 ≤ k ≤ 8, and all eight when the run does not end in the fatal outcome; with
the key "acme" and id-broker-name unset the fifth name is "acme-id-broker". -/
theorem setDnsToSecondary_calls_in_catalog_order {σ : Type} (d : DnsCommand σ)
    (getOption : String → String → String) (answers : Nat → String) (idpKey : String)
    (w : World σ) :
    (dnsRecords idpKey).map (resolve getOption) =
      [ (getOption "mfa-api-name" "mfa-api", getOption "mfa-api-value" ""),
        (getOption "twosv-api-name" "twosv-api", getOption "twosv-api-value" ""),
        (getOption "support-bot-name" "sherlock", getOption "support-bot-value" ""),
        (getOption "email-service-name" (idpKey ++ "-" ++ "email-service"),
          getOption "email-service-value" ""),
        (getOption "id-broker-name" (idpKey ++ "-" ++ "id-broker"),
          getOption "id-broker-value" ""),
        (getOption "pw-api-name" (idpKey ++ "-" ++ "pw-api"), getOption "pw-api-value" ""),
        (getOption "ssp-name" (idpKey ++ "-" ++ "ssp"), getOption "ssp-value" ""),
        (getOption "id-sync-name" (idpKey ++ "-" ++ "id-sync"), getOption "id-sync-value" "") ]
    ∧ (∃ k, 1 ≤ k ∧ k ≤ 8 ∧
        callsOf (newEvents w (setDnsToSecondary d getOption answers idpKey w).2) =
          ((dnsRecords idpKey).map (resolve getOption)).take k)
    ∧ ((setDnsToSecondary d getOption answers idpKey w).1 = .returned →
        callsOf (newEvents w (setDnsToSecondary d getOption answers idpKey w).2) =
          (dnsRecords idpKey).map (resolve getOption))
    ∧ (idpKey = "acme" → (∀ dflt : String, getOption "id-broker-name" dflt = dflt) →
        (((dnsRecords idpKey).map (resolve getOption)).map Prod.fst)[4]? =
          some "acme-id-broker") := by
  obtain ⟨k, hk1, hk, hnew, hret⟩ := run_calls_prefix d getOption answers idpKey w
  refine ⟨?_, ⟨k, hk1, by simpa [dnsRecords] using hk, hnew⟩, hret, ?_⟩
  · simp [dnsRecords, resolve, String.append_assoc]
  · intro hkey hno
    subst hkey
    simp only [dnsRecords, resolve, hno, List.map_cons, List.map_nil]
    rfl

theorem setDnsToSecondary_calls_in_catalog_order_witness :
    ((setDnsToSecondary (exampleCommand false) idBrokerOptions (fun _ => "yes") "acme"
        (World.start exampleStore)).1 = .returned ∧
      ∀ dflt : String, idBrokerOptions "id-broker-name" dflt = dflt) ∧
    (callsOf (newEvents (World.start exampleStore)
        (setDnsToSecondary (exampleCommand false) idBrokerOptions (fun _ => "yes") "acme"
          (World.start exampleStore)).2) =
      (dnsRecords "acme").map (resolve idBrokerOptions)
     ∧ (((dnsRecords "acme").map (resolve idBrokerOptions)).map Prod.fst)[4]? =
        some "acme-id-broker") :=
  ⟨⟨by decide, fun _ => rfl⟩,
   (setDnsToSecondary_calls_in_catalog_order (exampleCommand false) idBrokerOptions
      (fun _ => "yes") "acme" (World.start exampleStore)).2.2.1 (by decide),
   (setDnsToSecondary_calls_in_catalog_order (exampleCommand false) idBrokerOptions
      (fun _ => "yes") "acme" (World.start exampleStore)).2.2.2 rfl (fun _ => rfl)⟩

/-- Claim C8, as stated, fails for support-bot: with no name override the name resolved
for the third catalog entry is "sherlock", not "support-bot". -/
theorem supportBot_default_is_sherlock :
    ((dnsRecords "acme").map (resolve (optionsOf []))).map Prod.fst ≠
      ["mfa-api", "twosv-api", "support-bot", "acme-email-service", "acme-id-broker",
        "acme-pw-api", "acme-ssp", "acme-id-sync"]
    ∧ (((dnsRecords "acme").map (resolve (optionsOf []))).map Prod.fst).take 3 =
      ["mfa-api", "twosv-api", "sherlock"] := by
  decide

/-- Claim C8, amended: for every key, when the option source has no name override for
them, the names resolved for the three services that do not depend on the identity
provider are the fixed literals "mfa-api", "twosv-api" and "sherlock". -/
theorem fixed_default_names {σ : Type} (d : DnsCommand σ)
    (getOption : String → String → String) (idpKey : String)
    (hno : ∀ key ∈ ["mfa-api-name", "twosv-api-name", "support-bot-name"],
      ∀ dflt : String, getOption key dflt = dflt) :
    (((dnsRecords idpKey).map (resolve getOption)).map Prod.fst).take 3 =
      ["mfa-api", "twosv-api", "sherlock"]
    ∧ (((dnsRecords idpKey).take 3).map (fun r => r.optionName) =
      ["mfa-api-name", "twosv-api-name", "support-bot-name"])
    ∧ ∀ (answers : Nat → String) (w : World σ),
        (setDnsToSecondary d getOption answers idpKey w).1 = .returned →
        ((callsOf (newEvents w (setDnsToSecondary d getOption answers idpKey w).2)).map
          Prod.fst).take 3 = ["mfa-api", "twosv-api", "sherlock"] := by
  have h1 := hno "mfa-api-name" (by simp)
  have h2 := hno "twosv-api-name" (by simp)
  have h3 := hno "support-bot-name" (by simp)
  have hfirst : (((dnsRecords idpKey).map (resolve getOption)).map Prod.fst).take 3 =
      ["mfa-api", "twosv-api", "sherlock"] := by
    simp [dnsRecords, resolve, h1, h2, h3]
  refine ⟨hfirst, by simp [dnsRecords], ?_⟩
  intro answers w hret
  obtain ⟨k, _, _, _, hall⟩ := run_calls_prefix d getOption answers idpKey w
  rw [hall hret]; exact hfirst

theorem fixed_default_names_witness :
    (∀ key ∈ ["mfa-api-name", "twosv-api-name", "support-bot-name"],
      ∀ dflt : String, idBrokerOptions key dflt = dflt) ∧
    (((dnsRecords "acme").map (resolve idBrokerOptions)).map Prod.fst).take 3 =
      ["mfa-api", "twosv-api", "sherlock"] :=
  ⟨by intro key hk dflt; simp at hk; rcases hk with rfl | rfl | rfl <;> rfl,
   (fixed_default_names (exampleCommand false) idBrokerOptions "acme"
    (by intro key hk dflt; simp at hk; rcases hk with rfl | rfl | rfl <;> rfl)).1⟩

/-- Claim C10: for every key (the empty string and keys that contain service names or
hyphens included), the default record names of the catalog are pairwise distinct; so in
a run with no name override the names `setCloudflareCname` is called with are pairwise
distinct: no record is reconciled twice. -/
theorem default_names_pairwise_distinct (idpKey : String) :
    ((dnsRecords idpKey).map (fun r => r.defaultName)).Nodup
    ∧ ∀ {σ : Type} (d : DnsCommand σ) (getOption : String → String → String)
        (answers : Nat → String) (w : World σ),
        (∀ r ∈ dnsRecords idpKey, getOption r.optionName r.defaultName = r.defaultName) →
        ((callsOf (newEvents w (setDnsToSecondary d getOption answers idpKey w).2)).map
          Prod.fst).Nodup := by
  refine ⟨defaultNames_nodup idpKey, ?_⟩
  intro σ d getOption answers w hno
  obtain ⟨k, _, _, hnew, _⟩ := run_calls_prefix d getOption answers idpKey w
  have hmap : ((dnsRecords idpKey).map (resolve getOption)).map Prod.fst =
      (dnsRecords idpKey).map (fun r => r.defaultName) := by
    rw [List.map_map]
    apply List.map_congr_left
    intro r hr
    simp [resolve, hno r hr]
  rw [hnew]
  have hsub : (List.take k ((dnsRecords idpKey).map (resolve getOption))).Sublist
      ((dnsRecords idpKey).map (resolve getOption)) := List.take_sublist _ _
  have hn : (((dnsRecords idpKey).map (resolve getOption)).map Prod.fst).Nodup := by
    rw [hmap]; exact defaultNames_nodup idpKey
  exact (hsub.map Prod.fst).nodup hn

theorem default_names_pairwise_distinct_witness :
    (∀ r ∈ dnsRecords "", idBrokerOptions r.optionName r.defaultName = r.defaultName) ∧
    ((callsOf (newEvents (World.start exampleStore)
        (setDnsToSecondary (exampleCommand false) idBrokerOptions (fun _ => "yes") ""
          (World.start exampleStore)).2)).map Prod.fst).Nodup :=
  ⟨by decide, (default_names_pairwise_distinct "").2 (exampleCommand false) idBrokerOptions
    (fun _ => "yes") (World.start exampleStore) (by decide)⟩

/-! ## A second run after a first one -/

theorem fqdn_injective {σ : Type} (d : DnsCommand σ) (a b : String)
    (h : fqdn d a = fqdn d b) : a = b := by
  simp only [fqdn, ListDNSRecordsParams.mk.injEq] at h
  have hd : (a ++ "." ++ d.domainName).data = (b ++ "." ++ d.domainName).data := by rw [h]
  simp only [String.data_append] at hd
  exact String.ext (List.append_cancel_right (List.append_cancel_right hd))

/-- When the lookup does not give exactly one record, a call with a value ends in the
fatal outcome right after the lookup. -/
theorem cname_stuck {σ : Type} (d : DnsCommand σ) (answers : Nat → String)
    (name value : String) (w : World σ) (hv : value ≠ "")
    (hs : ¬ ∃ r, d.cfClient.ListDNSRecords w.store d.cfZone (fqdn d name) = .ok [r]) :
    ∃ msg, setCloudflareCname d answers name value w =
      (.fatal msg, ⟨w.store, w.asked, w.trace ++
        [.call name value, arrowLine d name value, .lookup (fqdn d name)]⟩) := by
  rcases hl : d.cfClient.ListDNSRecords w.store d.cfZone (fqdn d name) with err | rs
  · exact ⟨_, cname_lookup_error d answers name value w err hv hl⟩
  · refine ⟨_, cname_not_one d answers name value w rs hv hl ?_⟩
    intro hn
    obtain ⟨r, rfl⟩ := List.length_eq_one.mp hn
    exact hs ⟨r, hl⟩

/-- Over a store that keeps updates, a call leaves the store in a good state and
changes no lookup other than the one of its own record. -/
theorem cname_frame {σ : Type} (d : DnsCommand σ) (good : σ → Prop)
    (hU : UpdateSetsContent d good) (answers : Nat → String) (name value : String)
    (w : World σ) (hg : good w.store) :
    good (setCloudflareCname d answers name value w).2.store
    ∧ ∀ q : ListDNSRecordsParams, q ≠ fqdn d name →
        d.cfClient.ListDNSRecords (setCloudflareCname d answers name value w).2.store
          d.cfZone q = d.cfClient.ListDNSRecords w.store d.cfZone q := by
  rcases cname_cases d answers name value w with h | h | h | h | h | h | h
  · rw [h.2]; exact ⟨hg, fun _ _ => rfl⟩
  · obtain ⟨_, err, _, h⟩ := h
    rw [h]; exact ⟨hg, fun _ _ => rfl⟩
  · obtain ⟨_, rs, _, _, h⟩ := h
    rw [h]; exact ⟨hg, fun _ _ => rfl⟩
  · obtain ⟨_, r, _, _, h⟩ := h
    rw [h]; exact ⟨hg, fun _ _ => rfl⟩
  · obtain ⟨_, r, _, _, _, h⟩ := h
    rw [h]; exact ⟨hg, fun _ _ => rfl⟩
  · obtain ⟨_, r, _, _, _, _, h⟩ := h
    rw [h]; exact ⟨hg, fun _ _ => rfl⟩
  · obtain ⟨_, r, hl, _, _, _, h⟩ := h
    obtain ⟨_, hg2, _, hother⟩ := hU w.store (fqdn d name) r ⟨r.ID, "CNAME", name, value⟩ hg hl rfl
    rw [h]; exact ⟨hg2, hother⟩

theorem namesWithValue_cons_empty (getOption : String → String → String)
    (record : DnsRecordSpec) (rest : List DnsRecordSpec)
    (hv : getOption record.optionValue "" = "") :
    namesWithValue getOption (record :: rest) = namesWithValue getOption rest := by
  simp [namesWithValue, hv]

theorem namesWithValue_cons_value (getOption : String → String → String)
    (record : DnsRecordSpec) (rest : List DnsRecordSpec)
    (hv : getOption record.optionValue "" ≠ "") :
    namesWithValue getOption (record :: rest) =
      getOption record.optionName record.defaultName :: namesWithValue getOption rest := by
  simp [namesWithValue, hv]

/-- Over a store that keeps updates, the loop leaves the store in a good state and
changes no lookup other than those of its entries that have a value. -/
theorem forRecords_frame {σ : Type} (d : DnsCommand σ) (good : σ → Prop)
    (hU : UpdateSetsContent d good) (getOption : String → String → String)
    (answers : Nat → String) (l : List DnsRecordSpec) (w : World σ) (hg : good w.store) :
    good (forRecords d getOption answers l w).2.store
    ∧ ∀ q : ListDNSRecordsParams, (∀ n ∈ namesWithValue getOption l, q ≠ fqdn d n) →
        d.cfClient.ListDNSRecords (forRecords d getOption answers l w).2.store d.cfZone q =
          d.cfClient.ListDNSRecords w.store d.cfZone q := by
  induction l generalizing w with
  | nil => exact ⟨by simpa [forRecords] using hg, fun _ _ => by simp [forRecords]⟩
  | cons record rest ih =>
    have hstep := cname_frame d good hU answers
      (getOption record.optionName record.defaultName) (getOption record.optionValue "") w hg
    by_cases hv : getOption record.optionValue "" = ""
    · have hc := cname_empty d answers (getOption record.optionName record.defaultName) w
      simp only [forRecords, hv, hc, namesWithValue_cons_empty getOption record rest hv]
      exact ih _ hg
    · simp only [forRecords, namesWithValue_cons_value getOption record rest hv]
      rcases h : setCloudflareCname d answers (getOption record.optionName record.defaultName)
        (getOption record.optionValue "") w with ⟨o, w1⟩
      rw [h] at hstep
      simp only at hstep
      cases o with
      | fatal msg =>
        exact ⟨hstep.1, fun q hq => hstep.2 q (hq _ (List.mem_cons_self _ _))⟩
      | returned =>
        obtain ⟨hg2, hfr⟩ := ih w1 hstep.1
        refine ⟨hg2, fun q hq => ?_⟩
        simp only
        rw [hfr q (fun n hn => hq n (List.mem_cons_of_mem _ hn)),
          hstep.2 q (hq _ (List.mem_cons_self _ _))]

/-- Over a store that keeps updates, with test mode off, every prompt accepted and the
names of the entries that have a value pairwise distinct, the loop leaves the store in
a state in which its entries are settled. -/
theorem forRecords_settles {σ : Type} (d : DnsCommand σ) (good : σ → Prop)
    (hU : UpdateSetsContent d good) (ht : d.testMode = false)
    (getOption : String → String → String) (answers : Nat → String)
    (hyes : ∀ k, answers k = "yes") (l : List DnsRecordSpec) (w : World σ)
    (hg : good w.store) (hnd : (namesWithValue getOption l).Nodup) :
    Settled d getOption (forRecords d getOption answers l w).2.store l := by
  induction l generalizing w with
  | nil => trivial
  | cons record rest ih =>
    by_cases hv : getOption record.optionValue "" = ""
    · have hc := cname_empty d answers (getOption record.optionName record.defaultName) w
      rw [namesWithValue_cons_empty getOption record rest hv] at hnd
      simp only [forRecords, hv, hc]
      exact Or.inl ⟨hv, ih _ hg hnd⟩
    · rw [namesWithValue_cons_value getOption record rest hv] at hnd
      obtain ⟨hnotin, hnd2⟩ := List.nodup_cons.mp hnd
      have hframe : ∀ (s : σ) (n : Nat) (t : List Event), good s →
          d.cfClient.ListDNSRecords (forRecords d getOption answers rest ⟨s, n, t⟩).2.store
              d.cfZone (fqdn d (getOption record.optionName record.defaultName)) =
            d.cfClient.ListDNSRecords s d.cfZone
              (fqdn d (getOption record.optionName record.defaultName)) := by
        intro s n t hg1
        apply (forRecords_frame d good hU getOption answers rest ⟨s, n, t⟩ hg1).2
        intro n hn heq
        exact hnotin (by rw [fqdn_injective d _ _ heq]; exact hn)
      rcases cname_cases d answers (getOption record.optionName record.defaultName)
        (getOption record.optionValue "") w with h | h | h | h | h | h | h
      · exact absurd h.1 hv
      · obtain ⟨_, err, hl, h⟩ := h
        simp only [forRecords, h]
        exact Or.inr ⟨hv, Or.inr (by rintro ⟨r, hr⟩; rw [hl] at hr; cases hr)⟩
      · obtain ⟨_, rs, hl, hn, h⟩ := h
        simp only [forRecords, h]
        refine Or.inr ⟨hv, Or.inr ?_⟩
        rintro ⟨r, hr⟩
        rw [hl] at hr
        injection hr with hr
        subst hr
        exact hn rfl
      · obtain ⟨_, r, hl, hc, h⟩ := h
        simp only [forRecords, h]
        exact Or.inr ⟨hv, Or.inl ⟨⟨r, (hframe _ _ _ hg).trans hl, hc⟩,
          ih _ hg hnd2⟩⟩
      · obtain ⟨_, r, _, _, hf, _⟩ := h
        rw [ht] at hf; exact absurd hf (by decide)
      · obtain ⟨_, r, _, _, _, hno, _⟩ := h
        exact absurd (hyes _) hno
      · obtain ⟨_, r, hl, hc, _, _, h⟩ := h
        obtain ⟨herr, hg2, hnow, _⟩ := hU w.store
          (fqdn d (getOption record.optionName record.defaultName)) r
          ⟨r.ID, "CNAME", getOption record.optionName record.defaultName,
            getOption record.optionValue ""⟩ hg hl rfl
        rw [herr] at h
        simp only [forRecords, h]
        exact Or.inr ⟨hv, Or.inl ⟨⟨{ r with Content := getOption record.optionValue "" },
          (hframe _ _ _ hg2).trans hnow, rfl⟩, ih _ hg2 hnd2⟩⟩

/-- One step of the loop that returns without touching the store or the prompt,
followed by a quiet run of the rest, is a quiet run. -/
theorem forRecords_cons_quiet {σ : Type} (d : DnsCommand σ)
    (getOption : String → String → String) (answers : Nat → String)
    (record : DnsRecordSpec) (rest : List DnsRecordSpec) (w : World σ) (es0 : List Event)
    (h : setCloudflareCname d answers (getOption record.optionName record.defaultName)
      (getOption record.optionValue "") w = (.returned, ⟨w.store, w.asked, w.trace ++ es0⟩))
    (h0 : ∀ e ∈ es0, e.isUpdate = false ∧ e.isPrompt = false)
    (hrest : ∃ es, (forRecords d getOption answers rest ⟨w.store, w.asked, w.trace ++ es0⟩).2 =
        ⟨w.store, w.asked, (w.trace ++ es0) ++ es⟩ ∧
      ∀ e ∈ es, e.isUpdate = false ∧ e.isPrompt = false) :
    ∃ es, (forRecords d getOption answers (record :: rest) w).2 =
        ⟨w.store, w.asked, w.trace ++ es⟩ ∧
      ∀ e ∈ es, e.isUpdate = false ∧ e.isPrompt = false := by
  obtain ⟨es, hes, hq⟩ := hrest
  refine ⟨es0 ++ es, ?_, ?_⟩
  · simp only [forRecords, h]
    rw [hes, List.append_assoc]
  · intro e he
    rcases List.mem_append.mp he with he | he
    · exact h0 e he
    · exact hq e he

/-- Over a store state in which the entries are settled, the loop leaves the store and
the prompt count alone and adds neither a prompt nor an update to the trace, whatever
the answers and the test mode. -/
theorem forRecords_settled_quiet {σ : Type} (d : DnsCommand σ)
    (getOption : String → String → String) (answers : Nat → String)
    (l : List DnsRecordSpec) (w : World σ) (hs : Settled d getOption w.store l) :
    ∃ es, (forRecords d getOption answers l w).2 = ⟨w.store, w.asked, w.trace ++ es⟩ ∧
      ∀ e ∈ es, e.isUpdate = false ∧ e.isPrompt = false := by
  induction l generalizing w with
  | nil => exact ⟨[], by simp [forRecords], by simp⟩
  | cons record rest ih =>
    rcases hs with ⟨hv, hs⟩ | ⟨hv, ⟨⟨r, hl, hc⟩, hs⟩ | hs⟩
    · have hc := cname_empty d answers (getOption record.optionName record.defaultName) w
      rw [← hv] at hc
      refine forRecords_cons_quiet d getOption answers record rest w _ hc ?_ (ih _ hs)
      intro e he
      simp at he
      rcases he with rfl | rfl <;> simp [Event.isUpdate, Event.isPrompt]
    · have h := cname_same d answers _ _ w r hv hl hc
      refine forRecords_cons_quiet d getOption answers record rest w _ h ?_ (ih _ hs)
      intro e he
      simp at he
      rcases he with rfl | rfl | rfl | rfl <;> simp [Event.isUpdate, Event.isPrompt, arrowLine]
    · obtain ⟨msg, h⟩ := cname_stuck d answers _ _ w hv hs
      simp only [forRecords, h]
      refine ⟨_, rfl, ?_⟩
      intro e he
      simp at he
      rcases he with rfl | rfl | rfl <;> simp [Event.isUpdate, Event.isPrompt, arrowLine]

/-! ## Claims about the update request and about a second run -/

/-- Claim C9, as stated, fails on the name: in the running example the lookup returns the
CNAME record named "acme-id-broker.example.com", and the update request issued for it
carries the name "acme-id-broker", which is not the name of the record. -/
theorem update_request_name_differs :
    (exampleCommand false).cfClient.ListDNSRecords exampleStore "zone-1"
        ⟨"acme-id-broker" ++ "." ++ "example.com"⟩ =
      .ok [⟨"id-1", "CNAME", "acme-id-broker.example.com", "old-target.example.com"⟩]
    ∧ updatesOf (newEvents (World.start exampleStore)
        (setCloudflareCname (exampleCommand false) (fun _ => "yes") "acme-id-broker"
          "new-target.example.com" (World.start exampleStore)).2) =
      [⟨"id-1", "CNAME", "acme-id-broker", "new-target.example.com"⟩]
    ∧ (⟨"id-1", "CNAME", "acme-id-broker", "new-target.example.com"⟩ :
        UpdateDNSRecordParams).Name ≠
      (⟨"id-1", "CNAME", "acme-id-broker.example.com", "old-target.example.com"⟩ :
        DNSRecord).Name :=
  ⟨rfl, by decide, by decide⟩

/-- Claim C9, amended: whenever a call of `setCloudflareCname` issues an update, the
lookup of name + "." + domainName returned a single record `r`, the call issued that one
update only, and the request has the identifier of `r`, the type "CNAME" (the type of `r`
when `r` is a CNAME record), the desired value as content, and as name the unqualified
record name: the name of `r` is the name of the request followed by "." + domainName
when `r` carries the fully-qualified name. -/
theorem update_request_fields {σ : Type} (d : DnsCommand σ) (answers : Nat → String)
    (name value : String) (w : World σ) (p : UpdateDNSRecordParams)
    (hp : Event.update p ∈ newEvents w (setCloudflareCname d answers name value w).2) :
    ∃ r, d.cfClient.ListDNSRecords w.store d.cfZone ⟨name ++ "." ++ d.domainName⟩ = .ok [r]
      ∧ updatesOf (newEvents w (setCloudflareCname d answers name value w).2) = [p]
      ∧ p.ID = r.ID ∧ p.Type_ = "CNAME" ∧ p.Content = value ∧ p.Name = name
      ∧ (r.Type_ = "CNAME" → p.Type_ = r.Type_)
      ∧ (r.Name = name ++ "." ++ d.domainName → p.Name ++ "." ++ d.domainName = r.Name) := by
  rcases cname_cases d answers name value w with h | h | h | h | h | h | h
  · rw [h.2, newEvents_append] at hp; simp at hp
  · obtain ⟨_, err, _, h⟩ := h
    rw [h, newEvents_append] at hp; simp [arrowLine] at hp
  · obtain ⟨_, rs, _, _, h⟩ := h
    rw [h, newEvents_append] at hp; simp [arrowLine] at hp
  · obtain ⟨_, r, _, _, h⟩ := h
    rw [h, newEvents_append] at hp; simp [arrowLine] at hp
  · obtain ⟨_, r, _, _, _, h⟩ := h
    rw [h, newEvents_append] at hp; simp [arrowLine] at hp
  · obtain ⟨_, r, _, _, _, _, h⟩ := h
    rw [h, newEvents_append] at hp; simp [arrowLine] at hp
  · obtain ⟨_, r, hl, _, _, _, h⟩ := h
    rw [h, newEvents_append] at hp ⊢
    simp [arrowLine] at hp
    subst hp
    refine ⟨r, hl, by simp [updatesOf, arrowLine], rfl, rfl, rfl, rfl, fun ht => ht.symm,
      fun hn => hn.symm⟩

theorem update_request_fields_witness :
    Event.update ⟨"id-1", "CNAME", "acme-id-broker", "new-target.example.com"⟩ ∈
      newEvents (World.start exampleStore)
        (setCloudflareCname (exampleCommand false) (fun _ => "yes") "acme-id-broker"
          "new-target.example.com" (World.start exampleStore)).2
    ∧ ∃ r, (exampleCommand false).cfClient.ListDNSRecords (World.start exampleStore).store
          (exampleCommand false).cfZone
          ⟨"acme-id-broker" ++ "." ++ (exampleCommand false).domainName⟩ = .ok [r]
      ∧ updatesOf (newEvents (World.start exampleStore)
          (setCloudflareCname (exampleCommand false) (fun _ => "yes") "acme-id-broker"
            "new-target.example.com" (World.start exampleStore)).2) =
          [⟨"id-1", "CNAME", "acme-id-broker", "new-target.example.com"⟩]
      ∧ (⟨"id-1", "CNAME", "acme-id-broker", "new-target.example.com"⟩ :
          UpdateDNSRecordParams).ID = r.ID
      ∧ (⟨"id-1", "CNAME", "acme-id-broker", "new-target.example.com"⟩ :
          UpdateDNSRecordParams).Type_ = "CNAME"
      ∧ (⟨"id-1", "CNAME", "acme-id-broker", "new-target.example.com"⟩ :
          UpdateDNSRecordParams).Content = "new-target.example.com"
      ∧ (⟨"id-1", "CNAME", "acme-id-broker", "new-target.example.com"⟩ :
          UpdateDNSRecordParams).Name = "acme-id-broker"
      ∧ (r.Type_ = "CNAME" →
          (⟨"id-1", "CNAME", "acme-id-broker", "new-target.example.com"⟩ :
            UpdateDNSRecordParams).Type_ = r.Type_)
      ∧ (r.Name = "acme-id-broker" ++ "." ++ (exampleCommand false).domainName →
          (⟨"id-1", "CNAME", "acme-id-broker", "new-target.example.com"⟩ :
            UpdateDNSRecordParams).Name ++ "." ++ (exampleCommand false).domainName = r.Name) :=
  ⟨by decide, update_request_fields (exampleCommand false) (fun _ => "yes") "acme-id-broker"
    "new-target.example.com" (World.start exampleStore)
    ⟨"id-1", "CNAME", "acme-id-broker", "new-target.example.com"⟩ (by decide)⟩

/-- Claim C6, as stated, fails in its second half. Over the list-backed store, where an
update sets the content of the record it names and nothing else: (a) a first run in
which the operator declines changes nothing, and a second run in which the operator
accepts issues the update; (b) when two catalog entries are given the same record name
and different values, a first run with every prompt accepted updates the record twice,
and so does a second run. -/
theorem second_run_can_update :
    updatesOf (newEvents
        (World.start (setDnsToSecondary (exampleCommand false) idBrokerOptions
          (fun _ => "no") "acme" (World.start exampleStore)).2.store)
        (setDnsToSecondary (exampleCommand false) idBrokerOptions (fun _ => "yes") "acme"
          (World.start (setDnsToSecondary (exampleCommand false) idBrokerOptions
            (fun _ => "no") "acme" (World.start exampleStore)).2.store)).2) =
      [⟨"id-1", "CNAME", "acme-id-broker", "new-target.example.com"⟩]
    ∧ updatesOf (newEvents
        (World.start (setDnsToSecondary (exampleCommand false) sharedNameOptions
          (fun _ => "yes") "acme" (World.start sharedStore)).2.store)
        (setDnsToSecondary (exampleCommand false) sharedNameOptions (fun _ => "yes") "acme"
          (World.start (setDnsToSecondary (exampleCommand false) sharedNameOptions
            (fun _ => "yes") "acme" (World.start sharedStore)).2.store)).2) =
      [⟨"id-9", "CNAME", "shared", "a.example.net"⟩,
       ⟨"id-9", "CNAME", "shared", "b.example.net"⟩] := by
  decide

theorem updatesOf_eq_nil (es : List Event)
    (h : ∀ e ∈ es, e.isUpdate = false ∧ e.isPrompt = false) : updatesOf es = [] := by
  induction es with
  | nil => rfl
  | cons e rest ih =>
    have he := (h e (List.mem_cons_self _ _)).1
    have hr := ih (fun x hx => h x (List.mem_cons_of_mem _ hx))
    cases e <;> simp_all [updatesOf, Event.isUpdate]

/-- The list-backed store keeps updates on the states with unique identifiers. -/
theorem listStore_updateSetsContent (zone domain : String) (testMode : Bool) :
    UpdateSetsContent ⟨listStore, zone, domain, testMode⟩ uniqueIds := by
  intro s q r p hg hl hid
  simp only [listStore, Except.ok.injEq] at hl
  have hname : ∀ x : DNSRecord,
      (if x.ID = p.ID then { x with Content := p.Content } else x).Name = x.Name := by
    intro x; split <;> rfl
  have hidp : ∀ x : DNSRecord,
      (if x.ID = p.ID then { x with Content := p.Content } else x).ID = x.ID := by
    intro x; split <;> rfl
  have hfilter : ∀ q2 : ListDNSRecordsParams,
      (s.map (fun x => if x.ID = p.ID then { x with Content := p.Content } else x)).filter
        (fun x => x.Name = q2.Name) =
      (s.filter (fun x => x.Name = q2.Name)).map
        (fun x => if x.ID = p.ID then { x with Content := p.Content } else x) := by
    intro q2
    rw [List.filter_map]
    congr 1
    apply List.filter_congr
    intro x _
    simp only [Function.comp, hname]
  have hrmem : r ∈ s := by
    have : r ∈ s.filter (fun x => decide (x.Name = q.Name)) := by rw [hl]; simp
    exact (List.mem_filter.mp this).1
  have hrname : r.Name = q.Name := by
    have : r ∈ s.filter (fun x => decide (x.Name = q.Name)) := by rw [hl]; simp
    simpa using (List.mem_filter.mp this).2
  refine ⟨rfl, ?_, ?_, ?_⟩
  · simp only [uniqueIds, listStore, List.map_map] at hg ⊢
    have : ((fun x : DNSRecord => x.ID) ∘
        fun x => if x.ID = p.ID then { x with Content := p.Content } else x) =
        fun x : DNSRecord => x.ID := by
      funext x; simp only [Function.comp, hidp]
    rw [this]; exact hg
  · simp only [listStore, Except.ok.injEq]
    rw [hfilter, hl]
    simp [hid]
  · intro q2 hq2
    simp only [listStore, Except.ok.injEq]
    rw [hfilter]
    conv_rhs => rw [← List.map_id (s.filter (fun x => decide (x.Name = q2.Name)))]
    apply List.map_congr_left
    intro x hx
    obtain ⟨hxs, hxn⟩ := List.mem_filter.mp hx
    have hxn : x.Name = q2.Name := by simpa using hxn
    have hne : x.ID ≠ p.ID := by
      intro hxe
      have hxr : x = r := List.inj_on_of_nodup_map hg hxs hrmem (by rw [hxe, hid])
      apply hq2
      cases q2; cases q
      simp only [ListDNSRecordsParams.mk.injEq]
      simp only at hxn hrname
      rw [← hxn, ← hrname, hxr]
    simp [hne]

/-- Claim C6, amended. First half, as stated: with a non-empty value and a lookup that
returns exactly one record whose content is the value, `setCloudflareCname` does that
one lookup, no update and no prompt, prints the "already set" line and returns
normally, whatever the test mode. Second half: over a store that keeps updates (an
accepted update succeeds, sets the content of the looked-up record and changes no other
lookup), if the names of the catalog entries that have a value are pairwise distinct
and, unless test mode is on, the operator accepted every prompt of the first run, then
a second run over the same records, from the store the first run left, issues no update
and leaves the store as it is, whatever the operator answers. -/
theorem already_set_and_second_run {σ : Type} (d : DnsCommand σ) :
    (∀ (answers : Nat → String) (name value : String) (w : World σ) (r : DNSRecord),
      value ≠ "" →
      d.cfClient.ListDNSRecords w.store d.cfZone ⟨name ++ "." ++ d.domainName⟩ = .ok [r] →
      r.Content = value →
      setCloudflareCname d answers name value w =
        (.returned, ⟨w.store, w.asked, w.trace ++
          [.call name value,
           .out ("  " ++ name ++ "." ++ d.domainName ++ " --> " ++ value ++ "\n"),
           .lookup ⟨name ++ "." ++ d.domainName⟩,
           .out ("CNAME " ++ name ++ " is already set to " ++ value ++ "\n")]⟩)
      ∧ lookupsOf (newEvents w (setCloudflareCname d answers name value w).2) =
          [⟨name ++ "." ++ d.domainName⟩]
      ∧ updatesOf (newEvents w (setCloudflareCname d answers name value w).2) = []
      ∧ ∀ e ∈ newEvents w (setCloudflareCname d answers name value w).2, e.isPrompt = false)
    ∧ (∀ (good : σ → Prop) (getOption : String → String → String)
        (answers1 answers2 : Nat → String) (idpKey : String) (w1 w2 : World σ),
      UpdateSetsContent d good → good w1.store →
      (namesWithValue getOption (dnsRecords idpKey)).Nodup →
      (d.testMode = false → ∀ k, answers1 k = "yes") →
      w2.store = (setDnsToSecondary d getOption answers1 idpKey w1).2.store →
      updatesOf (newEvents w2 (setDnsToSecondary d getOption answers2 idpKey w2).2) = []
      ∧ (setDnsToSecondary d getOption answers2 idpKey w2).2.store = w2.store) := by
  constructor
  · intro answers name value w r hv hl hc
    have h := cname_same d answers name value w r hv hl hc
    simp only [arrowLine, fqdn] at h
    refine ⟨h, ?_, ?_, ?_⟩
    · rw [h, newEvents_append]; simp [lookupsOf]
    · rw [h, newEvents_append]; simp [updatesOf]
    · rw [h, newEvents_append]; simp [Event.isPrompt]
  · intro good getOption answers1 answers2 idpKey w1 w2 hU hg hnd hyes hw2
    have hquiet : ∃ es, (forRecords d getOption answers2 (dnsRecords idpKey)
          (w2.emit (.out "Setting DNS records to secondary...\n"))).2 =
          ⟨w2.store, w2.asked, (w2.trace ++ [.out "Setting DNS records to secondary...\n"]) ++ es⟩ ∧
        ∀ e ∈ es, e.isUpdate = false ∧ e.isPrompt = false := by
      by_cases ht : d.testMode = true
      · exact (forRecords_testMode_quiet d ht getOption answers2 (dnsRecords idpKey)
          (w2.emit (.out "Setting DNS records to secondary...\n"))).1
      · have ht : d.testMode = false := by simpa using ht
        have hs := forRecords_settles d good hU ht getOption answers1 (hyes ht)
          (dnsRecords idpKey) (w1.emit (.out "Setting DNS records to secondary...\n")) hg hnd
        apply forRecords_settled_quiet
        show Settled d getOption w2.store (dnsRecords idpKey)
        rw [hw2]; exact hs
    obtain ⟨es, hes, hq⟩ := hquiet
    unfold setDnsToSecondary
    rw [hes, List.append_assoc, newEvents_append]
    refine ⟨?_, rfl⟩
    apply updatesOf_eq_nil
    intro e he
    rcases List.mem_cons.mp he with rfl | he
    · simp [Event.isUpdate, Event.isPrompt]
    · exact hq e he

theorem already_set_and_second_run_witness :
    ((uniqueIds exampleStore ∧
      (namesWithValue idBrokerOptions (dnsRecords "acme")).Nodup) ∧
     ("new-target.example.com" ≠ "" ∧
      (⟨"id-1", "CNAME", "acme-id-broker.example.com", "new-target.example.com"⟩ :
        DNSRecord).Content = "new-target.example.com")) ∧
    (updatesOf (newEvents (World.start
          [⟨"id-1", "CNAME", "acme-id-broker.example.com", "new-target.example.com"⟩])
        (setCloudflareCname (exampleCommand false) (fun _ => "yes") "acme-id-broker"
          "new-target.example.com" (World.start
            [⟨"id-1", "CNAME", "acme-id-broker.example.com", "new-target.example.com"⟩])).2) = []
     ∧ updatesOf (newEvents
        (World.start (setDnsToSecondary (exampleCommand false) idBrokerOptions
          (fun _ => "yes") "acme" (World.start exampleStore)).2.store)
        (setDnsToSecondary (exampleCommand false) idBrokerOptions (fun _ => "maybe") "acme"
          (World.start (setDnsToSecondary (exampleCommand false) idBrokerOptions
            (fun _ => "yes") "acme" (World.start exampleStore)).2.store)).2) = []) :=
  ⟨⟨⟨by simp [uniqueIds, exampleStore], by decide⟩, by decide, rfl⟩,
   ((already_set_and_second_run (exampleCommand false)).1 (fun _ => "yes") "acme-id-broker"
      "new-target.example.com"
      (World.start [⟨"id-1", "CNAME", "acme-id-broker.example.com", "new-target.example.com"⟩])
      ⟨"id-1", "CNAME", "acme-id-broker.example.com", "new-target.example.com"⟩
      (by decide) rfl rfl).2.2.1,
   ((already_set_and_second_run (exampleCommand false)).2 uniqueIds idBrokerOptions
      (fun _ => "yes") (fun _ => "maybe") "acme" (World.start exampleStore)
      (World.start (setDnsToSecondary (exampleCommand false) idBrokerOptions
        (fun _ => "yes") "acme" (World.start exampleStore)).2.store)
      (listStore_updateSetsContent "zone-1" "example.com" false)
      (by simp [World.start, uniqueIds, exampleStore]) (by decide) (fun _ _ => rfl) rfl).1⟩

end Multiregion
